import Mathlib

/-!
Verification development for the formlib repository: a shallow embedding of
the form initialization and rendering adapter (formlib/form.py, formlib/tags.py)
together with theorems about its construction protocol, class merging and
template-tag rendering.

Modelling conventions:
* Python values passed through the constructor are modelled by `Val`
  (None, int, str, and the flat field-name-to-raw-value mappings that
  request.POST and request.FILES carry).
* Python dicts of keyword arguments are association lists with unique keys;
  `alookup` and `eraseKey` model `dict.get` and `dict.pop`.
* The stateful constructor is modelled as a function returning the ordered
  trace of its side effects (`Event`) together with either the constructed
  form or the configuration error raised by the debug-mode assert.
* The unordered Python sets of css class strings are represented by lists
  deduplicated in first-occurrence order; all theorems about them are stated
  at the level of finite sets, so the arbitrary iteration order of a Python
  set is never relied upon.
-/

/-- A Python value passed through the form machinery: None, an int, a str,
or a flat mapping such as request.POST / request.FILES. -/
inductive Val where
  | vnone
  | vint (n : Int)
  | vstr (s : String)
  | vdict (entries : List (String × String))
deriving DecidableEq, Repr

/-- The inbound request abstraction consumed by the adapter: its method
string and its submitted field-value and file-upload mappings. -/
structure Request where
  method : String
  POST : List (String × String)
  FILES : List (String × String)
deriving DecidableEq, Repr

/-- One form field: its name and the class attribute of its widget, read
as field.widget.attrs.get of the class key with empty-string default. -/
structure FormField where
  name : String
  classAttr : String
deriving DecidableEq, Repr

/-- The constructed form instance: the stored request, the data and files
arguments received by the base constructor, and the presentation state used
by as_full. -/
structure Form where
  request : Request
  data : Val
  files : Val
  field_css : List String
  fields : List FormField
deriving DecidableEq, Repr

/-- Static, reflection-derived description of a concrete form subclass:
the declared parameter names of its init() hook (`inspect.getargspec(self.init).args`,
including "self"), the union over the class mro of the declared parameter
names of the `__init__` methods (used by the debug-mode collision check),
the declared parameter names of the external base form constructor (recorded
only so that claims about them can be stated), and the class-level
presentation attributes. -/
structure FormClass where
  initArgs : List String
  mroCtorArgs : List String
  baseCtorArgs : List String
  field_css : List String
  fields : List FormField
deriving DecidableEq, Repr

/-- Lookup in an association list, modelling Python `dict` access. -/
def alookup {α : Type} (k : String) : List (String × α) → Option α
  | [] => none
  | p :: rest => if p.1 = k then some p.2 else alookup k rest

/-- Remove a key from an association list, modelling `dict.pop`. -/
def eraseKey {α : Type} (k : String) (l : List (String × α)) : List (String × α) :=
  l.filter (fun p => !(p.1 = k : Bool))

/-- Side effects of the constructor, in order: storing the request,
partitioning off the init() keyword arguments, invoking the superclass
constructor, and invoking the init() hook. -/
inductive Event where
  | setRequest
  | partition (initKw : List (String × Val))
  | baseInit (data : Val) (files : Val) (extraArgs : List Val) (kwargs : List (String × Val))
  | initHook (kwargs : List (String × Val))
deriving DecidableEq, Repr

/-- The configuration error raised by the debug-mode assert when init()
argument names collide with constructor argument names in the mro. -/
inductive InitError where
  | configError (conflicts : List String)
deriving DecidableEq, Repr

/-- The declared parameter names of the init() hook other than "self":
exactly the keys stripped off the keyword arguments at line 82 of form.py. -/
def hookParamNames (fc : FormClass) : List String :=
  fc.initArgs.filter (fun k => !(k = "self" : Bool))

/-- The keyword arguments delivered to the init() hook: the dict
comprehension at line 82 of form.py, mapping each declared init parameter
except self to the popped keyword value, defaulted to None. -/
def initKwargsOf (fc : FormClass) (kwargs : List (String × Val)) : List (String × Val) :=
  (hookParamNames fc).map (fun k => (k, (alookup k kwargs).getD Val.vnone))

/-- The collision set of the debug-mode check: mro constructor argument
names that are also init() hook parameter names (`mro_args & set(init_kwargs.keys())`),
as a deduplicated list. -/
def conflictsOf (fc : FormClass) : List String :=
  (fc.mroCtorArgs.filter (fun a => (hookParamNames fc).contains a)).dedup

/-- Resolution of the data argument, mirroring line 95 of form.py: the
first positional argument when present, else the popped data keyword when
present, else request.POST for a POST request and None otherwise; returns
the value together with the keyword arguments left after any pop. -/
def resolveData (request : Request) (args : List Val) (kwargs : List (String × Val)) :
    Val × List (String × Val) :=
  match args.head? with
  | some d => (d, kwargs)
  | none =>
    match alookup "data" kwargs with
    | some d => (d, eraseKey "data" kwargs)
    | none =>
      (if request.method = "POST" then Val.vdict request.POST else Val.vnone, kwargs)

/-- Resolution of the files argument, mirroring line 96 of form.py. -/
def resolveFiles (request : Request) (args : List Val) (kwargs : List (String × Val)) :
    Val × List (String × Val) :=
  match args.get? 1 with
  | some f => (f, kwargs)
  | none =>
    match alookup "files" kwargs with
    | some f => (f, eraseKey "files" kwargs)
    | none =>
      (if request.method = "POST" then Val.vdict request.FILES else Val.vnone, kwargs)

/-- The constructor protocol of FormMixIn.__init__ (form.py lines 76-106):
store the request, strip off the init() keyword arguments, run the
debug-mode collision assert, resolve data and files, call the superclass
constructor, and finally call the init() hook. Returns the ordered trace of
effects and either the constructed form or the configuration error. -/
def formInit (fc : FormClass) (request : Request) (args : List Val)
    (kwargs : List (String × Val)) (debug : Bool) :
    List Event × Except InitError Form :=
  let initKw := initKwargsOf fc kwargs
  let kwargs1 := kwargs.filter (fun p => !((hookParamNames fc).contains p.1))
  if debug && !(conflictsOf fc).isEmpty then
    ([Event.setRequest, Event.partition initKw],
     Except.error (InitError.configError (conflictsOf fc)))
  else
    let dk := resolveData request args kwargs1
    let fk := resolveFiles request args dk.2
    let form : Form :=
      { request := request, data := dk.1, files := fk.1,
        field_css := fc.field_css, fields := fc.fields }
    ([Event.setRequest, Event.partition initKw,
      Event.baseInit dk.1 fk.1 (args.drop 2) fk.2, Event.initHook initKw],
     Except.ok form)

/-- The data argument recorded at the superclass-constructor call of a trace. -/
def baseDataOf (tr : List Event) : Option Val :=
  tr.findSome? (fun e => match e with
    | Event.baseInit d _ _ _ => some d
    | _ => none)

/-- The files argument recorded at the superclass-constructor call of a trace. -/
def baseFilesOf (tr : List Event) : Option Val :=
  tr.findSome? (fun e => match e with
    | Event.baseInit _ f _ _ => some f
    | _ => none)

/-- The keyword arguments recorded at the superclass-constructor call of a trace. -/
def baseKwargsOf (tr : List Event) : Option (List (String × Val)) :=
  tr.findSome? (fun e => match e with
    | Event.baseInit _ _ _ kw => some kw
    | _ => none)

/-- The keyword arguments recorded at the init() hook call of a trace. -/
def hookKwargsOf (tr : List Event) : Option (List (String × Val)) :=
  tr.findSome? (fun e => match e with
    | Event.initHook kw => some kw
    | _ => none)

/-- Whether an event is an init() hook invocation. -/
def isInitHook (e : Event) : Bool :=
  match e with
  | Event.initHook _ => true
  | _ => false

/-- The word-splitting of Python `s.split(' ')` on character lists: split at
every single space, keeping empty pieces, with `[[]]` for the empty string. -/
def splitSpChars : List Char → List (List Char)
  | [] => [[]]
  | c :: rest =>
    if c = ' ' then [] :: splitSpChars rest
    else
      match splitSpChars rest with
      | [] => [[c]]
      | t :: ts => (c :: t) :: ts

/-- Python `' '.join` on character lists. -/
def joinSpChars : List (List Char) → List Char
  | [] => []
  | [t] => t
  | t :: u :: rest => t ++ ' ' :: joinSpChars (u :: rest)

/-- Python `str.strip()` on character lists: drop whitespace from both ends. -/
def pyStrip (l : List Char) : List Char :=
  List.rdropWhile Char.isWhitespace (l.dropWhile Char.isWhitespace)

/-- The class tokens parsed from the class attribute of a widget,
mirroring the generator at line 122 of form.py read as the underlying list
before deduplication: split at spaces, keep the nonempty pieces, strip
each. -/
def parseClasses (s : String) : List String :=
  ((splitSpChars s.data).filter (fun t => !t.isEmpty)).map (fun t => String.mk (pyStrip t))

/-- Python `' '.join` on strings. -/
def joinSp (toks : List String) : String :=
  String.mk (joinSpChars (toks.map String.data))

/-- The merged class set `set(self.field_css) | current` of as_full,
represented as a list deduplicated in first-occurrence order (the Python set
iteration order is arbitrary; theorems about this value are set-level). -/
def mergeClasses (css : List String) (s : String) : List String :=
  (css ++ parseClasses s).dedup

/-- The per-field mutation of as_full:
`field.widget.attrs['class'] = ' '.join(css | current)`. -/
def asFullFormField (css : List String) (f : FormField) : FormField :=
  { f with classAttr := joinSp (mergeClasses css f.classAttr) }

/-- The call to the external template renderer made by as_full:
dmp_render_to_string applied to the stored request, the form.htm template,
and a context binding the form itself. The rendered text is produced by the
external engine; the call records exactly what the adapter hands it. -/
structure RenderCall where
  req : Request
  template : String
  ctxForm : Form
deriving DecidableEq, Repr

/-- FormMixIn.as_full (form.py lines 117-126): merge the default css classes
into the class attribute of every field, then delegate to the renderer
with the (mutated) form as context. Returns the mutated form and the
renderer call standing for the returned markup. -/
def as_full (form : Form) : Form × RenderCall :=
  let fields2 := form.fields.map (asFullFormField form.field_css)
  let form2 := { form with fields := fields2 }
  (form2, { req := form2.request, template := "form.htm", ctxForm := form2 })

/-- FormMixIn.__str__: returns self.as_full(). -/
def formToString (form : Form) : Form × RenderCall :=
  as_full form

/-- The default commit hook (form.py lines 134-138): a no-op returning None. -/
def commitDefault (form : Form) (args : List Val) (kwargs : List (String × Val)) :
    Val × Form :=
  (Val.vnone, form)

/-- The default init hook (form.py lines 109-114): a no-op. -/
def initHookDefault (form : Form) (kwargs : List (String × Val)) : Form :=
  form

/-- Modelled from the spec: the latest variant of the render-as-complete-markup
operation (the Formless.as_full called by tags.py with an extra argument) is
not under src/; per the spec it "renders it with an optional trailing content
fragment appended", so it is the as_full of form.py followed by appending the
extra fragment to the rendered text. The result pairs the mutated form with
the renderer call and the appended fragment. -/
def asFullExtra (form : Form) (extra : String) : Form × RenderCall × String :=
  ((as_full form).1, (as_full form).2, extra)

/-- An object bound in a mako rendering context: the null object, a form
instance of the expected Formless type (whose class is not under src/ and is
modelled as the form data the adapter manipulates), a string, or some other
non-form value. -/
inductive Obj where
  | onone
  | oform (f : Form)
  | ostr (s : String)
  | oint (n : Int)
deriving DecidableEq, Repr

/-- Python `context.get(name)`: the bound object, or None when the name is
absent (collapsing absence and a None binding exactly as Python does). -/
def ctxGet (ctx : List (String × Obj)) (k : String) : Obj :=
  match alookup k ctx with
  | some v => v
  | none => Obj.onone

/-- The two errors raised by the template tag (tags.py lines 32-35), both
ValueError in Python, distinguished here as the two raise sites are by their
messages: the named form is missing from the context, or the resolved object
is not a Formless instance. -/
inductive RenderErr where
  | keyNotFound (k : String)
  | notFormless
deriving DecidableEq, Repr

/-- Form resolution of the template tag (tags.py lines 29-35): a string
argument is looked up in the context and must not resolve to None; the
resolved object must be a Formless instance. -/
def resolveForm (ctx : List (String × Obj)) (form : Obj) : Except RenderErr Form :=
  let formobj : Except RenderErr Obj :=
    match form with
    | Obj.ostr s =>
      match ctxGet ctx s with
      | Obj.onone => Except.error (RenderErr.keyNotFound s)
      | v => Except.ok v
    | v => Except.ok v
  match formobj with
  | Except.error e => Except.error e
  | Except.ok (Obj.oform f) => Except.ok f
  | Except.ok _ => Except.error RenderErr.notFormless

/-- The template tag render (tags.py lines 29-38): resolve the form, capture
the caller body, and return formobj.as_full(extra=extra). -/
def renderTag (ctx : List (String × Obj)) (form : Obj) (body : String) :
    Except RenderErr (Form × RenderCall × String) :=
  match resolveForm ctx form with
  | Except.error e => Except.error e
  | Except.ok f => Except.ok (asFullExtra f body)

/-- A sample form subclass shaped like the MyForm example of form.py:
its init hook declares parameters a and b, and no hook parameter collides
with a constructor parameter anywhere in the mro. -/
def fcW : FormClass :=
  { initArgs := ["self", "a", "b"],
    mroCtorArgs := ["self", "request", "data", "files", "auto_id", "initial"],
    baseCtorArgs := ["self", "data", "files", "auto_id", "initial"],
    field_css := ["form-control"],
    fields := [{ name := "name", classAttr := "" }] }

/-- A sample submitting request carrying one submitted field. -/
def reqPost : Request :=
  { method := "POST", POST := [("name", "Ada")], FILES := [] }

/-- A sample non-submitting request. -/
def reqGet : Request := { method := "GET", POST := [], FILES := [] }

/-- A sample form subclass whose init hook declares no extra parameters,
with the base constructor parameters of the external form base class. -/
def fcPlain : FormClass :=
  { initArgs := ["self"],
    mroCtorArgs := ["self", "request"],
    baseCtorArgs := ["self", "data", "files", "auto_id", "initial"],
    field_css := ["form-control"],
    fields := [] }

/-- A sample form subclass whose init hook parameter "data" collides with a
constructor parameter in the mro, triggering the debug-mode check. -/
def fcConf : FormClass :=
  { initArgs := ["self", "data"],
    mroCtorArgs := ["self", "request", "data", "files"],
    baseCtorArgs := ["self", "data", "files", "auto_id", "initial"],
    field_css := ["form-control"],
    fields := [] }

/-- The trace produced by constructing fcW from reqPost with keyword
argument a only. -/
def trC1 : List Event :=
  [Event.setRequest,
   Event.partition [("a", Val.vint 7), ("b", Val.vnone)],
   Event.baseInit (Val.vdict [("name", "Ada")]) (Val.vdict []) [] [],
   Event.initHook [("a", Val.vint 7), ("b", Val.vnone)]]

/-- The form produced by constructing fcW from reqPost. -/
def formC1 : Form :=
  { request := reqPost, data := Val.vdict [("name", "Ada")],
    files := Val.vdict [], field_css := ["form-control"],
    fields := [{ name := "name", classAttr := "" }] }

/-- The trace produced by constructing fcW from reqPost with keyword
arguments a and zz, the latter not a hook parameter. -/
def trC2 : List Event :=
  [Event.setRequest,
   Event.partition [("a", Val.vint 7), ("b", Val.vnone)],
   Event.baseInit (Val.vdict [("name", "Ada")]) (Val.vdict []) [] [("zz", Val.vint 9)],
   Event.initHook [("a", Val.vint 7), ("b", Val.vnone)]]

/-- A sample constructed form whose single field carries one existing
presentation class. -/
def formW2 : Form :=
  { request := reqGet, data := Val.vnone, files := Val.vnone,
    field_css := ["form-control"], fields := [{ name := "name", classAttr := "big" }] }

/-- A sample rendering context binding a form under the default key and a
non-form object under another key. -/
def ctxW : List (String × Obj) := [("form", Obj.oform formW2), ("bad", Obj.oint 3)]

/-- Filtering an association list cannot create a key that was absent. -/
theorem alookup_filter_none {α : Type} (k : String) (p : String × α → Bool)
    (l : List (String × α)) (h : alookup k l = none) :
    alookup k (l.filter p) = none := by
  induction l with
  | nil => rfl
  | cons a rest ih =>
    by_cases hk : a.1 = k
    · simp [alookup, hk] at h
    · have h2 : alookup k rest = none := by simpa [alookup, hk] using h
      by_cases hp : p a = true
      · simpa [List.filter_cons, hp, alookup, hk] using ih h2
      · simpa [List.filter_cons, hp] using ih h2

/-- Splitting at spaces always yields at least one piece. -/
theorem splitSpChars_ne_nil (l : List Char) : splitSpChars l ≠ [] := by
  induction l with
  | nil => simp [splitSpChars]
  | cons c rest ih =>
    simp only [splitSpChars]
    by_cases hc : c = ' '
    · simp [hc]
    · simp only [if_neg hc]
      cases hsp : splitSpChars rest with
      | nil => simp
      | cons t ts => simp

/-- A space-free character list splits into itself alone. -/
theorem splitSpChars_no_sp_eq (t : List Char) (h : ' ' ∉ t) : splitSpChars t = [t] := by
  induction t with
  | nil => rfl
  | cons c rest ih =>
    have hc : ¬ c = ' ' := by rintro rfl; exact h (List.mem_cons_self _ _)
    have hr : ' ' ∉ rest := fun m => h (List.mem_cons_of_mem c m)
    simp only [splitSpChars, if_neg hc, ih hr]

/-- Splitting a space-free piece, a space, and a remainder peels off the piece. -/
theorem splitSpChars_append (t l : List Char) (h : ' ' ∉ t) :
    splitSpChars (t ++ ' ' :: l) = t :: splitSpChars l := by
  induction t with
  | nil => simp [splitSpChars]
  | cons c rest ih =>
    have hc : ¬ c = ' ' := by rintro rfl; exact h (List.mem_cons_self _ _)
    have hr : ' ' ∉ rest := fun m => h (List.mem_cons_of_mem c m)
    simp only [List.cons_append, splitSpChars, if_neg hc, List.append_eq, ih hr]

/-- Splitting after joining recovers the tokens when none contains a space. -/
theorem splitSp_joinSp (toks : List (List Char)) (hne : toks ≠ [])
    (h : ∀ t ∈ toks, ' ' ∉ t) :
    splitSpChars (joinSpChars toks) = toks := by
  induction toks with
  | nil => exact absurd rfl hne
  | cons t rest ih =>
    cases rest with
    | nil =>
      simpa [joinSpChars] using splitSpChars_no_sp_eq t (h t (List.mem_cons_self _ _))
    | cons u rs =>
      have ht : ' ' ∉ t := h t (List.mem_cons_self _ _)
      have hrest : ∀ x ∈ u :: rs, ' ' ∉ x := fun x hx => h x (List.mem_cons_of_mem _ hx)
      simp only [joinSpChars]
      rw [splitSpChars_append t _ ht, ih (by simp) hrest]

/-- Every piece produced by splitting at spaces is space-free. -/
theorem mem_splitSpChars_no_sp (l : List Char) : ∀ t ∈ splitSpChars l, ' ' ∉ t := by
  induction l with
  | nil =>
    intro t ht
    simp [splitSpChars] at ht
    subst ht; simp
  | cons c rest ih =>
    intro t ht
    by_cases hc : c = ' '
    · simp only [splitSpChars, if_pos hc] at ht
      rcases List.mem_cons.mp ht with h1 | h2
      · subst h1; simp
      · exact ih t h2
    · simp only [splitSpChars, if_neg hc] at ht
      cases hsp : splitSpChars rest with
      | nil => exact absurd hsp (splitSpChars_ne_nil rest)
      | cons x xs =>
        rw [hsp] at ht
        rcases List.mem_cons.mp ht with h1 | h2
        · subst h1
          intro hm
          rcases List.mem_cons.mp hm with e | m2
          · exact hc e.symm
          · exact ih x (by rw [hsp]; exact List.mem_cons_self _ _) m2
        · exact ih t (by rw [hsp]; exact List.mem_cons_of_mem _ h2)

/-- Stripping yields a sublist of the original character list. -/
theorem pyStrip_sublist (l : List Char) : List.Sublist (pyStrip l) l := by
  unfold pyStrip
  have h1 := List.rdropWhile_prefix Char.isWhitespace (l.dropWhile Char.isWhitespace)
  have h2 := List.dropWhile_suffix (l := l) Char.isWhitespace
  exact (h1.sublist).trans (h2.sublist)

/-- Stripping preserves space-freeness. -/
theorem pyStrip_no_sp {l : List Char} (h : ' ' ∉ l) : ' ' ∉ pyStrip l :=
  fun m => h (List.Sublist.mem m (pyStrip_sublist l))

/-- Stripping is idempotent. -/
theorem pyStrip_idem (l : List Char) : pyStrip (pyStrip l) = pyStrip l := by
  unfold pyStrip
  have hdrop : (List.rdropWhile Char.isWhitespace (l.dropWhile Char.isWhitespace)).dropWhile
      Char.isWhitespace = List.rdropWhile Char.isWhitespace (l.dropWhile Char.isWhitespace) := by
    rw [List.dropWhile_eq_self_iff]
    intro hl
    have hpre := List.rdropWhile_prefix Char.isWhitespace (l.dropWhile Char.isWhitespace)
    have hlen : 0 < (l.dropWhile Char.isWhitespace).length :=
      lt_of_lt_of_le hl hpre.length_le
    have hget := List.IsPrefix.getElem hpre hl
    have hzero := List.dropWhile_get_zero_not Char.isWhitespace l hlen
    simp only [List.get_eq_getElem] at hzero ⊢
    rw [← hget] at hzero
    exact hzero
  rw [hdrop, List.rdropWhile_idempotent]

/-- A string with an empty character list is the empty string. -/
theorem string_data_nil_eq (a : String) (e : a.data = []) : a = "" := by
  cases a with
  | mk d =>
    have hd : d = [] := e
    subst hd
    rfl

/-- Parsing the joined form of space-free, strip-fixed tokens returns the
tokens, minus the empty ones. -/
theorem parseClasses_joinSp (toks : List String)
    (h : ∀ t ∈ toks, ' ' ∉ t.data ∧ pyStrip t.data = t.data) :
    parseClasses (joinSp toks) = toks.filter (fun t => !t.data.isEmpty) := by
  cases toks with
  | nil => rfl
  | cons t rest =>
    have hsplit : splitSpChars (joinSpChars ((t :: rest).map String.data)) =
        (t :: rest).map String.data := by
      apply splitSp_joinSp
      · simp
      · intro x hx
        rcases List.mem_map.mp hx with ⟨s, hs, rfl⟩
        exact (h s hs).1
    unfold parseClasses joinSp
    rw [show (String.mk (joinSpChars ((t :: rest).map String.data))).data
        = joinSpChars ((t :: rest).map String.data) from rfl]
    rw [hsplit, List.filter_map, List.map_map]
    simp only [Function.comp_def]
    have hcongr : ∀ s ∈ (t :: rest).filter (fun s => !s.data.isEmpty),
        String.mk (pyStrip s.data) = s := by
      intro s hs
      have hm := List.mem_of_mem_filter hs
      rw [(h s hm).2]
    rw [List.map_congr_left hcongr]
    simp

/-- Every parsed class token is space-free and strip-fixed. -/
theorem mem_parseClasses_clean (s : String) :
    ∀ t ∈ parseClasses s, ' ' ∉ t.data ∧ pyStrip t.data = t.data := by
  intro t ht
  unfold parseClasses at ht
  rcases List.mem_map.mp ht with ⟨u, hu, rfl⟩
  have humem : u ∈ splitSpChars s.data := List.mem_of_mem_filter hu
  have hnosp : ' ' ∉ u := mem_splitSpChars_no_sp s.data u humem
  exact ⟨pyStrip_no_sp hnosp, pyStrip_idem u⟩

/-- The merged class tokens are space-free and strip-fixed when the default
classes are. -/
theorem mem_mergeClasses_clean (css : List String) (s : String)
    (hcss : ∀ t ∈ css, ' ' ∉ t.data ∧ pyStrip t.data = t.data) :
    ∀ t ∈ mergeClasses css s, ' ' ∉ t.data ∧ pyStrip t.data = t.data := by
  intro t ht
  rcases List.mem_append.mp (List.mem_dedup.mp ht) with h1 | h2
  · exact hcss t h1
  · exact mem_parseClasses_clean s t h2

/-- Parsing the class attribute written by as_full recovers exactly the
merged class list, provided the default classes are nonempty, space-free and
strip-fixed and the previous attribute has no whitespace-only token. -/
theorem parse_after_asFull (css : List String) (s : String)
    (hcss : ∀ t ∈ css, t ≠ "" ∧ ' ' ∉ t.data ∧ pyStrip t.data = t.data)
    (hs : "" ∉ parseClasses s) :
    parseClasses (joinSp (mergeClasses css s)) = mergeClasses css s := by
  have hclean : ∀ t ∈ mergeClasses css s, ' ' ∉ t.data ∧ pyStrip t.data = t.data :=
    mem_mergeClasses_clean css s (fun t ht => ⟨(hcss t ht).2.1, (hcss t ht).2.2⟩)
  rw [parseClasses_joinSp _ hclean]
  apply List.filter_eq_self.mpr
  intro a ha
  have hane : a ≠ "" := by
    rcases List.mem_append.mp (List.mem_dedup.mp ha) with h1 | h2
    · exact (hcss a h1).1
    · intro e; rw [e] at h2; exact hs h2
  have hne : a.data ≠ [] := fun e => hane (string_data_nil_eq a e)
  simp [List.isEmpty_iff, hne]

/-- Deduplication does not change the finite set of elements of a list. -/
theorem list_toFinset_dedup {α : Type} [DecidableEq α] (l : List α) :
    l.dedup.toFinset = l.toFinset := by
  apply Finset.ext
  intro a
  simp [List.mem_toFinset, List.mem_dedup]

/-- C1: for a construction from a request with no explicit data or files
arguments, positional or keyword, a submitting (POST) request makes the base
constructor receive the request submitted field-value mapping as data and
its file-upload mapping as files, so the constructed form submitted-value
mapping equals the request submitted mapping; a non-submitting request makes
data and files be passed as None. -/
theorem claim_C1 (fc : FormClass) (req : Request) (kwargs : List (String × Val))
    (debug : Bool) (tr : List Event) (form : Form)
    (h : formInit fc req [] kwargs debug = (tr, Except.ok form))
    (hd : alookup "data" kwargs = none)
    (hf : alookup "files" kwargs = none) :
    (req.method = "POST" →
      baseDataOf tr = some (Val.vdict req.POST) ∧
      baseFilesOf tr = some (Val.vdict req.FILES) ∧
      form.data = Val.vdict req.POST ∧ form.files = Val.vdict req.FILES) ∧
    (req.method ≠ "POST" →
      baseDataOf tr = some Val.vnone ∧ baseFilesOf tr = some Val.vnone ∧
      form.data = Val.vnone ∧ form.files = Val.vnone) := by
  have hd1 := alookup_filter_none "data"
    (fun p => !((hookParamNames fc).contains p.1)) kwargs hd
  have hf1 := alookup_filter_none "files"
    (fun p => !((hookParamNames fc).contains p.1)) kwargs hf
  by_cases hc : (debug && !(conflictsOf fc).isEmpty) = true
  · simp [formInit, hc] at h
  · simp at hd1 hf1
    simp [formInit, hc, resolveData, resolveFiles, hd1, hf1] at h
    by_cases hm : req.method = "POST"
    · simp [hm] at h
      obtain ⟨htr, hform⟩ := h
      constructor
      · intro _
        subst htr
        simp [baseDataOf, baseFilesOf, List.findSome?, ← hform]
      · intro hn; exact absurd hm hn
    · simp [hm] at h
      obtain ⟨htr, hform⟩ := h
      constructor
      · intro hp; exact absurd hp hm
      · intro _
        subst htr
        simp [baseDataOf, baseFilesOf, List.findSome?, ← hform]

/-- C1 witness: constructing the sample subclass from the sample POST
request hands the submitted mapping to the base constructor and stores it. -/
theorem claim_C1_witness :
    baseDataOf trC1 = some (Val.vdict [("name", "Ada")]) ∧
    formC1.data = Val.vdict [("name", "Ada")] := by
  have h := claim_C1 fcW reqPost [("a", Val.vint 7)] false trC1 formC1 rfl rfl rfl
  exact ⟨(h.1 rfl).1, (h.1 rfl).2.2.1⟩

/-- C2 counterexample: the claim that keyword arguments not matching the
base constructor declared parameters go to the init hook is false. The
keyword argument named extra matches no base constructor parameter of the
sample subclass, yet the hook receives the empty set and the base
constructor receives extra. -/
theorem claim_C2_counterexample :
    ("extra" ∈ fcPlain.baseCtorArgs → False) ∧
    hookKwargsOf (formInit fcPlain reqGet [] [("extra", Val.vint 1)] false).1 = some [] ∧
    hookKwargsOf (formInit fcPlain reqGet [] [("extra", Val.vint 1)] false).1 ≠
      some [("extra", Val.vint 1)] ∧
    baseKwargsOf (formInit fcPlain reqGet [] [("extra", Val.vint 1)] false).1 =
      some [("extra", Val.vint 1)] := by
  decide

/-- C2 amended: the keyword arguments are partitioned by the init hook
declared parameter names, not by the base constructor declared parameter
names: the hook receives exactly one entry per declared hook parameter,
bound to the supplied value or None, and the base constructor receives
exactly the remaining keyword arguments (here with data and files absent so
that no positional extraction interferes). -/
theorem claim_C2_amended (fc : FormClass) (req : Request)
    (kwargs : List (String × Val)) (debug : Bool) (tr : List Event) (form : Form)
    (h : formInit fc req [] kwargs debug = (tr, Except.ok form))
    (hd : alookup "data" kwargs = none)
    (hf : alookup "files" kwargs = none) :
    hookKwargsOf tr = some (initKwargsOf fc kwargs) ∧
    baseKwargsOf tr =
      some (kwargs.filter (fun p => !((hookParamNames fc).contains p.1))) ∧
    (initKwargsOf fc kwargs).map Prod.fst = hookParamNames fc := by
  have hd1 := alookup_filter_none "data"
    (fun p => !((hookParamNames fc).contains p.1)) kwargs hd
  have hf1 := alookup_filter_none "files"
    (fun p => !((hookParamNames fc).contains p.1)) kwargs hf
  by_cases hc : (debug && !(conflictsOf fc).isEmpty) = true
  · simp [formInit, hc] at h
  · simp at hd1 hf1
    simp [formInit, hc, resolveData, resolveFiles, hd1, hf1] at h
    obtain ⟨htr, hform⟩ := h
    refine ⟨?_, ?_, by simp [initKwargsOf, Function.comp_def]⟩
    · rw [← htr]; simp [hookKwargsOf, List.findSome?]
    · rw [← htr]; simp [baseKwargsOf, List.findSome?]

/-- C2 amended witness: with hook parameters a and b and keyword arguments
a and zz, the hook receives a (supplied) and b (None) while the base
constructor receives zz. -/
theorem claim_C2_amended_witness :
    hookKwargsOf trC2 = some [("a", Val.vint 7), ("b", Val.vnone)] ∧
    baseKwargsOf trC2 = some [("zz", Val.vint 9)] := by
  have h := claim_C2_amended fcW reqPost [("a", Val.vint 7), ("zz", Val.vint 9)] false
    trC2 formC1 rfl rfl rfl
  refine ⟨?_, ?_⟩
  · have h1 := h.1
    simpa [initKwargsOf, hookParamNames, fcW, alookup] using h1
  · have h2 := h.2.1
    simpa [hookParamNames, fcW, alookup] using h2

/-- C3: with the debug flag set and a collision between a hook parameter
name and a constructor parameter name in the mro, construction fails with
the configuration error and the base constructor is never invoked; with the
flag unset or no collision, construction succeeds and no configuration error
is raised. -/
theorem claim_C3 (fc : FormClass) (req : Request) (args : List Val)
    (kwargs : List (String × Val)) (debug : Bool) (tr : List Event)
    (res : Except InitError Form)
    (h : formInit fc req args kwargs debug = (tr, res)) :
    (debug = true → conflictsOf fc ≠ [] →
      res = Except.error (InitError.configError (conflictsOf fc)) ∧
      ∀ d f ex kw, Event.baseInit d f ex kw ∉ tr) ∧
    (debug = false ∨ conflictsOf fc = [] → ∃ g, res = Except.ok g) := by
  by_cases hc : (debug && !(conflictsOf fc).isEmpty) = true
  · simp [formInit, hc] at h
    obtain ⟨htr, hres⟩ := h
    constructor
    · intro _ _
      refine ⟨hres.symm, ?_⟩
      intro d f ex kw hmem
      rw [← htr] at hmem
      simp at hmem
    · intro hor
      rcases Bool.and_eq_true_iff.mp hc with ⟨hdbg, hne⟩
      rcases hor with h1 | h2
      · rw [h1] at hdbg; exact absurd hdbg (by simp)
      · rw [h2] at hne; simp at hne
  · simp [formInit, hc] at h
    obtain ⟨htr, hres⟩ := h
    constructor
    · intro hdbg hconf
      exfalso
      apply hc
      simp [hdbg, List.isEmpty_iff, hconf]
    · intro _
      exact ⟨_, hres.symm⟩

/-- C3 witness: the sample subclass whose hook parameter data collides with
a constructor parameter in the mro fails under the debug flag with the
configuration error, before any base constructor invocation. -/
theorem claim_C3_witness :
    (formInit fcConf reqGet [] [] true).2 =
      Except.error (InitError.configError ["data"]) ∧
    (∀ d f ex kw, Event.baseInit d f ex kw ∉ (formInit fcConf reqGet [] [] true).1) := by
  have h := claim_C3 fcConf reqGet [] [] true
    (formInit fcConf reqGet [] [] true).1 (formInit fcConf reqGet [] [] true).2 rfl
  have h1 := h.1 rfl (by decide)
  exact ⟨by rw [h1.1]; rfl, h1.2⟩

/-- C4: rendering twice with no field mutation in between yields, for every
field, the same merged set of style-class names after the second call as
after the first, provided the class names involved are genuine class tokens:
the default classes are nonempty, space-free and strip-fixed, and no field
attribute contains a whitespace-only token. -/
theorem claim_C4 (form : Form)
    (hcss : ∀ t ∈ form.field_css, t ≠ "" ∧ ' ' ∉ t.data ∧ pyStrip t.data = t.data)
    (hf : ∀ f ∈ form.fields, "" ∉ parseClasses f.classAttr) :
    (as_full (as_full form).1).1.fields.map
        (fun f => (parseClasses f.classAttr).toFinset) =
      (as_full form).1.fields.map (fun f => (parseClasses f.classAttr).toFinset) := by
  simp only [as_full, List.map_map]
  apply List.map_congr_left
  intro f hfmem
  show (parseClasses (asFullFormField form.field_css
      (asFullFormField form.field_css f)).classAttr).toFinset =
    (parseClasses (asFullFormField form.field_css f).classAttr).toFinset
  have h1 : parseClasses (joinSp (mergeClasses form.field_css f.classAttr)) =
      mergeClasses form.field_css f.classAttr :=
    parse_after_asFull _ _ hcss (hf f hfmem)
  have hs2 : "" ∉ parseClasses (joinSp (mergeClasses form.field_css f.classAttr)) := by
    rw [h1]
    intro hmem
    rcases List.mem_append.mp (List.mem_dedup.mp hmem) with hcl | hp
    · exact (hcss _ hcl).1 rfl
    · exact hf f hfmem hp
  have h2 := parse_after_asFull form.field_css
    (joinSp (mergeClasses form.field_css f.classAttr)) hcss hs2
  unfold asFullFormField
  rw [h2, h1]
  rw [show mergeClasses form.field_css (joinSp (mergeClasses form.field_css f.classAttr)) =
      (form.field_css ++ parseClasses
        (joinSp (mergeClasses form.field_css f.classAttr))).dedup from rfl]
  rw [h1, list_toFinset_dedup, List.toFinset_append]
  rw [show mergeClasses form.field_css f.classAttr =
      (form.field_css ++ parseClasses f.classAttr).dedup from rfl]
  rw [list_toFinset_dedup, List.toFinset_append, ← Finset.union_assoc, Finset.union_self]

/-- C4 witness: rendering the sample form twice yields the same merged class
set for its field after both calls. -/
theorem claim_C4_witness :
    (as_full (as_full formW2).1).1.fields.map
        (fun f => (parseClasses f.classAttr).toFinset) =
      (as_full formW2).1.fields.map (fun f => (parseClasses f.classAttr).toFinset) :=
  claim_C4 formW2 (by decide) (by decide)

/-- C5: one call of as_full replaces every field class attribute with
exactly the set union of the default style classes and the classes
previously present, with no duplicates, under the same class-token
hypotheses as C4. -/
theorem claim_C5 (form : Form)
    (hcss : ∀ t ∈ form.field_css, t ≠ "" ∧ ' ' ∉ t.data ∧ pyStrip t.data = t.data)
    (hf : ∀ f ∈ form.fields, "" ∉ parseClasses f.classAttr) :
    (as_full form).1.fields.map (fun f => (parseClasses f.classAttr).toFinset) =
      form.fields.map
        (fun f => form.field_css.toFinset ∪ (parseClasses f.classAttr).toFinset) ∧
    ∀ f2 ∈ (as_full form).1.fields, (parseClasses f2.classAttr).Nodup := by
  constructor
  · simp only [as_full, List.map_map]
    apply List.map_congr_left
    intro f hfmem
    show (parseClasses (asFullFormField form.field_css f).classAttr).toFinset = _
    unfold asFullFormField
    rw [parse_after_asFull _ _ hcss (hf f hfmem)]
    unfold mergeClasses
    rw [list_toFinset_dedup, List.toFinset_append]
  · intro f2 hf2
    simp only [as_full] at hf2
    rcases List.mem_map.mp hf2 with ⟨f, hfmem, rfl⟩
    show (parseClasses (asFullFormField form.field_css f).classAttr).Nodup
    unfold asFullFormField
    rw [parse_after_asFull _ _ hcss (hf f hfmem)]
    exact List.nodup_dedup _

/-- C5 witness: as_full on the sample form merges form-control into the
field carrying class big, as a duplicate-free union. -/
theorem claim_C5_witness :
    (as_full formW2).1.fields.map (fun f => (parseClasses f.classAttr).toFinset) =
      formW2.fields.map
        (fun f => formW2.field_css.toFinset ∪ (parseClasses f.classAttr).toFinset) ∧
    ∀ f2 ∈ (as_full formW2).1.fields, (parseClasses f2.classAttr).Nodup :=
  claim_C5 formW2 (by decide) (by decide)

/-- C6: the template tag with no explicit name renders the form bound to
the key form in the context; a name absent from the context raises the
missing-key error; a present name bound to a non-form, non-null object
raises the not-a-Formless error. -/
theorem claim_C6 (ctx : List (String × Obj)) (F : Form) (body : String)
    (s1 s2 : String) (v : Obj)
    (h1 : alookup "form" ctx = some (Obj.oform F))
    (h2 : alookup s1 ctx = none)
    (h3 : alookup s2 ctx = some v)
    (h4 : v ≠ Obj.onone)
    (h5 : ∀ G, v ≠ Obj.oform G) :
    renderTag ctx (Obj.ostr "form") body = Except.ok (asFullExtra F body) ∧
    renderTag ctx (Obj.ostr s1) body = Except.error (RenderErr.keyNotFound s1) ∧
    renderTag ctx (Obj.ostr s2) body = Except.error RenderErr.notFormless := by
  refine ⟨?_, ?_, ?_⟩
  · simp [renderTag, resolveForm, ctxGet, h1]
  · simp [renderTag, resolveForm, ctxGet, h2]
  · cases v with
    | onone => exact absurd rfl h4
    | oform G => exact absurd rfl (h5 G)
    | ostr u => simp [renderTag, resolveForm, ctxGet, h3]
    | oint n => simp [renderTag, resolveForm, ctxGet, h3]

/-- C6 witness: in the sample context the default key renders the bound
form, a missing key raises the missing-key error, and the key bound to an
int raises the not-a-Formless error. -/
theorem claim_C6_witness :
    renderTag ctxW (Obj.ostr "form") "tail" = Except.ok (asFullExtra formW2 "tail") ∧
    renderTag ctxW (Obj.ostr "missing") "tail" =
      Except.error (RenderErr.keyNotFound "missing") ∧
    renderTag ctxW (Obj.ostr "bad") "tail" = Except.error RenderErr.notFormless :=
  claim_C6 ctxW formW2 "tail" "missing" "bad" (Obj.oint 3) rfl rfl rfl
    (by intro h; cases h) (fun G hG => Obj.noConfusion hG)

/-- C7: a successful construction produces exactly one init hook
invocation, as the last step, strictly after the base constructor, with the
keyword arguments partitioned off at the start of construction. -/
theorem claim_C7 (fc : FormClass) (req : Request) (args : List Val)
    (kwargs : List (String × Val)) (debug : Bool) (tr : List Event) (form : Form)
    (h : formInit fc req args kwargs debug = (tr, Except.ok form)) :
    (∃ d f kw, tr = [Event.setRequest, Event.partition (initKwargsOf fc kwargs),
        Event.baseInit d f (args.drop 2) kw, Event.initHook (initKwargsOf fc kwargs)]) ∧
    (tr.filter isInitHook).length = 1 ∧
    tr.getLast? = some (Event.initHook (initKwargsOf fc kwargs)) := by
  by_cases hc : (debug && !(conflictsOf fc).isEmpty) = true
  · simp [formInit, hc] at h
  · simp [formInit, hc] at h
    obtain ⟨htr, hform⟩ := h
    refine ⟨⟨_, _, _, htr.symm⟩, ?_, ?_⟩
    · rw [← htr]; simp [isInitHook]
    · rw [← htr]; simp

/-- C7 witness: the sample construction trace ends in exactly one init hook
invocation carrying the partitioned arguments, after the base constructor. -/
theorem claim_C7_witness :
    (∃ d f kw, trC1 = [Event.setRequest,
        Event.partition (initKwargsOf fcW [("a", Val.vint 7)]),
        Event.baseInit d f [] kw,
        Event.initHook (initKwargsOf fcW [("a", Val.vint 7)])]) ∧
    (trC1.filter isInitHook).length = 1 ∧
    trC1.getLast? = some (Event.initHook (initKwargsOf fcW [("a", Val.vint 7)])) := by
  have h := claim_C7 fcW reqPost [] [("a", Val.vint 7)] false trC1 formC1 rfl
  exact h

/-- C9: every declared init hook parameter other than self that is absent
from the supplied keyword arguments is still passed to the hook, bound to
None; the hook always receives its complete declared parameter set. -/
theorem claim_C9 (fc : FormClass) (req : Request) (args : List Val)
    (kwargs : List (String × Val)) (debug : Bool) (tr : List Event) (form : Form)
    (k : String) (hk : k ∈ fc.initArgs) (hself : k ≠ "self")
    (h : formInit fc req args kwargs debug = (tr, Except.ok form)) :
    (k, (alookup k kwargs).getD Val.vnone) ∈ initKwargsOf fc kwargs ∧
    (alookup k kwargs = none → (k, Val.vnone) ∈ initKwargsOf fc kwargs) ∧
    (initKwargsOf fc kwargs).map Prod.fst = hookParamNames fc ∧
    Event.initHook (initKwargsOf fc kwargs) ∈ tr := by
  have hmemHook : k ∈ hookParamNames fc := by
    simp [hookParamNames, hself, hk]
  refine ⟨?_, ?_, ?_, ?_⟩
  · exact List.mem_map_of_mem _ hmemHook
  · intro hnone
    have h1 := List.mem_map_of_mem (fun k => (k, (alookup k kwargs).getD Val.vnone)) hmemHook
    simpa only [hnone, Option.getD_none] using h1
  · simp [initKwargsOf, Function.comp_def]
  · by_cases hc : (debug && !(conflictsOf fc).isEmpty) = true
    · simp [formInit, hc] at h
    · simp [formInit, hc] at h
      rw [← h.1]
      simp

/-- C9 witness: hook parameter b, absent from the supplied keyword
arguments, reaches the hook bound to None in the sample construction. -/
theorem claim_C9_witness :
    ("b", Val.vnone) ∈ initKwargsOf fcW [("a", Val.vint 7)] ∧
    Event.initHook (initKwargsOf fcW [("a", Val.vint 7)]) ∈ trC1 := by
  have h := claim_C9 fcW reqPost [] [("a", Val.vint 7)] false trC1 formC1
    "b" (by decide) (by decide) rfl
  exact ⟨h.2.1 rfl, h.2.2.2⟩

/-- C10: every construction stores the request first, the constructed form
keeps it, as_full leaves it unchanged and passes exactly it to the template
renderer, and the string conversion and the default hooks leave the form
untouched. -/
theorem claim_C10 (fc : FormClass) (req : Request) (args : List Val)
    (kwargs : List (String × Val)) (debug : Bool) (tr : List Event) (form : Form)
    (g : Form)
    (h : formInit fc req args kwargs debug = (tr, Except.ok form)) :
    tr.head? = some Event.setRequest ∧
    form.request = req ∧
    (as_full g).1.request = g.request ∧
    (as_full g).2.req = g.request ∧
    formToString g = as_full g ∧
    (commitDefault g [] []).2 = g ∧ (commitDefault g [] []).1 = Val.vnone ∧
    initHookDefault g [] = g := by
  by_cases hc : (debug && !(conflictsOf fc).isEmpty) = true
  · simp [formInit, hc] at h
  · simp [formInit, hc] at h
    obtain ⟨htr, hform⟩ := h
    refine ⟨by rw [← htr]; rfl, by rw [← hform], ?_, ?_, rfl, rfl, rfl, rfl⟩
    · simp [as_full]
    · simp [as_full]

/-- C10 witness: the sample construction trace starts by storing the
request, the constructed form holds it, and as_full hands exactly it to the
renderer. -/
theorem claim_C10_witness :
    trC1.head? = some Event.setRequest ∧
    formC1.request = reqPost ∧
    (as_full formC1).1.request = formC1.request ∧
    (as_full formC1).2.req = formC1.request := by
  have h := claim_C10 fcW reqPost [] [("a", Val.vint 7)] false trC1 formC1 formC1 rfl
  exact ⟨h.1, h.2.1, h.2.2.1, h.2.2.2.1⟩

/-- C8: every successful template tag invocation returns the markup of the
resolved form produced by as_full with the captured trailing fragment
appended. -/
theorem claim_C8 (ctx : List (String × Obj)) (fo : Obj) (body : String) (F : Form)
    (h : resolveForm ctx fo = Except.ok F) :
    renderTag ctx fo body = Except.ok (asFullExtra F body) ∧
    asFullExtra F body = ((as_full F).1, (as_full F).2, body) := by
  constructor
  · simp [renderTag, h]
  · rfl

/-- C8 witness: rendering the sample bound form with a caller body returns
its as_full markup with the body appended. -/
theorem claim_C8_witness :
    renderTag ctxW (Obj.oform formW2) "tail" =
      Except.ok (asFullExtra formW2 "tail") ∧
    asFullExtra formW2 "tail" = ((as_full formW2).1, (as_full formW2).2, "tail") :=
  claim_C8 ctxW (Obj.oform formW2) "tail" formW2 rfl
